import Mathlib

/-!
Shallow embedding of the TES execution-and-accounting core
(`src/tes/execution/orders.py`, `src/tes/execution/portfolio.py`,
`src/tes/execution/engine.py`, `src/tes/utils/performance.py`).

Python floats are modelled as exact rationals (`ℚ`); the source's explicit
`1e-9` tolerances are kept as the rational `tol`.  Python exceptions are
modelled by `Except Err`: a function that raises returns `.error e`, and since
every raise site in the source precedes any field mutation of the object in
question, an `.error` result leaves the caller's state exactly as it was.
Timestamps are modelled as naturals (the source only compares them for
equality and order).
-/

namespace TES

/-- The `1e-9` floating tolerance used throughout the source. -/
def tol : ℚ := 1 / 1000000000

/-- Error taxonomy: one constructor per distinct raise site family in the
source (`ValueError`s in orders/portfolio/engine).  The spec names them
OversellError, InsufficientFundsError, ConfigurationError, etc. -/
inductive Err where
  | invalidOrder
  | invalidQuantity
  | insufficientFunds
  | oversell
  | badMarkPrice
  | unsupportedDirection
  | emptyCandles
  | configuration
deriving DecidableEq

/-- `OrderSide` from `orders.py`. -/
inductive OrderSide where
  | buy
  | sell
deriving DecidableEq

/-- `Trade` from `orders.py` (an `Order` plus `slippage`). -/
structure Trade where
  timestamp : ℕ
  side : OrderSide
  price : ℚ
  quantity : ℚ
  fee : ℚ
  slippage : ℚ
deriving DecidableEq

/-- `Order.__post_init__` / `Trade.__post_init__` validation: price and
quantity positive, fee and slippage non-negative (finiteness is automatic
in `ℚ`).  Returns the constructed trade or the constructor's error. -/
def mkTrade (ts : ℕ) (side : OrderSide) (price quantity fee slippage : ℚ) :
    Except Err Trade :=
  if price ≤ 0 then .error .invalidOrder
  else if quantity ≤ 0 then .error .invalidOrder
  else if fee < 0 then .error .invalidOrder
  else if slippage < 0 then .error .invalidOrder
  else .ok ⟨ts, side, price, quantity, fee, slippage⟩

/-- `Trade.execution_price`: slippage always works against the trader. -/
def Trade.execution_price (t : Trade) : ℚ :=
  match t.side with
  | .buy => t.price * (1 + t.slippage)
  | .sell => t.price * (1 - t.slippage)

/-- `Position` from `orders.py`. -/
structure Position where
  quantity : ℚ
  average_price : ℚ
deriving DecidableEq

/-- `Position.market_value`. -/
def Position.market_value (p : Position) (mark_price : ℚ) : ℚ :=
  p.quantity * mark_price

/-- `Position.unrealised_pnl` (`is_flat` inlined as `quantity = 0`). -/
def Position.unrealised_pnl (p : Position) (mark_price : ℚ) : ℚ :=
  if p.quantity = 0 then 0 else (mark_price - p.average_price) * p.quantity

/-- `Position.apply_trade`.  On BUY the cost basis is blended (the Python
`if self.quantity:` test is `quantity ≠ 0`); on SELL an oversell beyond
`tol` raises, and a residual quantity `≤ tol` snaps to the flat position. -/
def Position.apply_trade (p : Position) (t : Trade) : Except Err Position :=
  let execution_price := t.execution_price
  match t.side with
  | .buy =>
    let unit_cost := execution_price + t.fee / t.quantity
    let new_notional := p.average_price * p.quantity + unit_cost * t.quantity
    let q := p.quantity + t.quantity
    .ok ⟨q, if q = 0 then p.average_price else new_notional / q⟩
  | .sell =>
    if t.quantity - p.quantity > tol then .error .oversell
    else
      let q := p.quantity - t.quantity
      if q ≤ tol then .ok ⟨0, 0⟩ else .ok ⟨q, p.average_price⟩

/-- `PortfolioSnapshot` from `portfolio.py`. -/
structure PortfolioSnapshot where
  timestamp : ℕ
  equity : ℚ
  cash : ℚ
  position_quantity : ℚ
  position_value : ℚ
  unrealised_pnl : ℚ
  realised_pnl : ℚ
  gross_exposure : ℚ
deriving DecidableEq

/-- `Portfolio` from `portfolio.py`. -/
structure Portfolio where
  cash : ℚ
  position : Position
  trade_history : List Trade
  snapshots : List PortfolioSnapshot
  realised_pnl : ℚ
deriving DecidableEq

/-- `Portfolio(cash=...)` with the dataclass field defaults. -/
def Portfolio.init (cash : ℚ) : Portfolio :=
  ⟨cash, ⟨0, 0⟩, [], [], 0⟩

/-- `Portfolio._record_snapshot` / `Portfolio.mark_to_market`: rejects a
non-positive mark price, otherwise appends one snapshot computed from the
current cash/position and the given mark price. -/
def Portfolio.mark_to_market (pf : Portfolio) (ts : ℕ) (mark_price : ℚ) :
    Except Err Portfolio :=
  if mark_price ≤ 0 then .error .badMarkPrice
  else
    let equity := pf.cash + pf.position.market_value mark_price
    let gross_exposure := |pf.position.quantity| * mark_price
    .ok { pf with
      snapshots := pf.snapshots ++
        [⟨ts, equity, pf.cash, pf.position.quantity,
          pf.position.market_value mark_price,
          pf.position.unrealised_pnl mark_price,
          pf.realised_pnl, gross_exposure⟩] }

/-- `Portfolio.process_trade`: BUY debits cash after the solvency check,
SELL credits proceeds after the oversell check and accrues realized P&L
`((execution_price − fee/quantity) − pre_trade_average_price) × quantity`.
Every raise precedes every mutation, so an `.error` result is the unchanged
portfolio. -/
def Portfolio.process_trade (pf : Portfolio) (t : Trade) : Except Err Portfolio :=
  if t.quantity ≤ 0 then .error .invalidQuantity
  else
    let execution_price := t.execution_price
    let notional := execution_price * t.quantity
    let pre_trade_average_price := pf.position.average_price
    let pre_trade_quantity := pf.position.quantity
    match t.side with
    | .buy =>
      let total_cost := notional + t.fee
      if total_cost - pf.cash > tol then .error .insufficientFunds
      else do
        let pos ← pf.position.apply_trade t
        .ok { pf with
          cash := pf.cash - total_cost
          position := pos
          trade_history := pf.trade_history ++ [t] }
    | .sell =>
      if t.quantity - pre_trade_quantity > tol then .error .oversell
      else do
        let pos ← pf.position.apply_trade t
        let unit_fee := t.fee / t.quantity
        let realised :=
          ((execution_price - unit_fee) - pre_trade_average_price) * t.quantity
        .ok { pf with
          cash := pf.cash + (notional - t.fee)
          position := pos
          trade_history := pf.trade_history ++ [t]
          realised_pnl := pf.realised_pnl + realised }

/-- `Portfolio.total_equity`: the last snapshot's equity, or cash if none. -/
def Portfolio.total_equity (pf : Portfolio) : ℚ :=
  match pf.snapshots.getLast? with
  | none => pf.cash
  | some s => s.equity

/-- One candle row as the engine consumes it (only `timestamp` and `close`
are read by `run_backtest`). -/
structure Candle where
  timestamp : ℕ
  close : ℚ
deriving DecidableEq

/-- One row of the signal frame built from the strategy's signals: the
engine reads only `timestamp` (the index) and `direction`.  Signal
generation itself is an external collaborator; the engine loop is modelled
over the precomputed signal rows it consults. -/
structure SignalRow where
  timestamp : ℕ
  direction : ℤ
deriving DecidableEq

/-- `ExecutionEngine` configuration fields (the strategy object is the
external signal source and is not part of the accounting state). -/
structure EngineConfig where
  initial_balance : ℚ
  max_position_pct : ℚ
  fee_pct : ℚ
  slippage_pct : ℚ
  min_trade_value : ℚ
deriving DecidableEq

/-- `ExecutionEngine.__init__`: the only constructor validation present in
the source is `0 < max_position_pct ≤ 1`. -/
def mkEngine (initial_balance max_position_pct fee_pct slippage_pct
    min_trade_value : ℚ) : Except Err EngineConfig :=
  if ¬(0 < max_position_pct ∧ max_position_pct ≤ 1) then .error .configuration
  else .ok ⟨initial_balance, max_position_pct, fee_pct, slippage_pct,
    min_trade_value⟩

/-- `ExecutionEngine._rebalance`: BUY when target is 1 and flat (sized from
cash, skipped below `min_trade_value`), SELL the whole position when target
is 0 and long, otherwise a no-op; an unsupported direction raises.  Trade
construction runs the `Trade.__post_init__` checks (`mkTrade`). -/
def rebalance (cfg : EngineConfig) (ts : ℕ) (price : ℚ) (direction : ℤ)
    (pf : Portfolio) : Except Err (Portfolio × List Trade) :=
  if direction ≠ 0 ∧ direction ≠ 1 then .error .unsupportedDirection
  else if direction = 1 ∧ pf.position.quantity ≤ 0 then
    let desired_value := pf.cash * cfg.max_position_pct
    if desired_value < cfg.min_trade_value then .ok (pf, [])
    else do
      let t ← mkTrade ts .buy price (desired_value / price)
        (desired_value * cfg.fee_pct) cfg.slippage_pct
      let pf' ← pf.process_trade t
      .ok (pf', [t])
  else if direction = 0 ∧ pf.position.quantity > 0 then do
    let t ← mkTrade ts .sell price pf.position.quantity
      (price * pf.position.quantity * cfg.fee_pct) cfg.slippage_pct
    let pf' ← pf.process_trade t
    .ok (pf', [t])
  else .ok (pf, [])

/-- `signal_df.loc[timestamp]` on the timestamp-indexed signal frame: all
signal rows carrying that exact timestamp, in order (a missing timestamp
gives no rows). -/
def signalsAt (signals : List SignalRow) (ts : ℕ) : List SignalRow :=
  signals.filter (fun s => s.timestamp == ts)

/-- One iteration of the `run_backtest` candle loop: replay every signal
row matching the candle's timestamp through `rebalance`, then
unconditionally mark to market at the candle's close. -/
def stepCandle (cfg : EngineConfig) (signals : List SignalRow)
    (st : Portfolio × List Trade) (c : Candle) :
    Except Err (Portfolio × List Trade) := do
  let (pf0, trades0) := st
  let (pf1, emitted) ← (signalsAt signals c.timestamp).foldlM
    (fun (acc : Portfolio × List Trade) row => do
      let (pf, ts') := acc
      let (pf', new) ← rebalance cfg c.timestamp c.close row.direction pf
      pure (pf', ts' ++ new))
    (pf0, [])
  let pf2 ← pf1.mark_to_market c.timestamp c.close
  pure (pf2, trades0 ++ emitted)

/-- Stable insertion of a candle into a timestamp-sorted list (the insert
goes after existing candles with the same timestamp). -/
def insertCandle (c : Candle) : List Candle → List Candle
  | [] => [c]
  | d :: ds =>
    if d.timestamp ≤ c.timestamp then d :: insertCandle c ds
    else c :: d :: ds

/-- `candles.sort_values("timestamp")`: sort the candle rows by timestamp
(stable on equal timestamps; the source keeps duplicate timestamps). -/
def sortCandles (candles : List Candle) : List Candle :=
  candles.foldr insertCandle []

/-- `ExecutionEngine.run_backtest` restricted to the accounting core: empty
input is rejected, candles are sorted by timestamp, and each candle is
processed by `stepCandle` starting from a fresh portfolio.  The result is
the final portfolio (whose snapshot list is the equity curve) together with
the emitted trade list. -/
def run_backtest (cfg : EngineConfig) (candles : List Candle)
    (signals : List SignalRow) : Except Err (Portfolio × List Trade) :=
  if candles.isEmpty then .error .emptyCandles
  else
    (sortCandles candles).foldlM (stepCandle cfg signals)
      (Portfolio.init cfg.initial_balance, [])

/-- Last element of a rational list with a default (for `equity.iloc[-1]`). -/
def lastD : List ℚ → ℚ → ℚ
  | [], d => d
  | x :: xs, _ => lastD xs x

/-- `total_return = equity.iloc[-1] / equity.iloc[0] − 1`. -/
def totalReturn (equity : List ℚ) : ℚ :=
  lastD equity 0 / equity.headD 0 - 1

/-- `equity.cummax()` continued from a running maximum `m`. -/
def cummaxFrom (m : ℚ) : List ℚ → List ℚ
  | [] => []
  | x :: xs => max m x :: cummaxFrom (max m x) xs

/-- `equity.cummax()`. -/
def runningMax : List ℚ → List ℚ
  | [] => []
  | x :: xs => x :: cummaxFrom x xs

/-- Minimum of a rational list (`Series.min()`), 0 on the empty list. -/
def listMin : List ℚ → ℚ
  | [] => 0
  | x :: xs => xs.foldl min x

/-- `_calculate_max_drawdown`: `min(equity / running_max(equity) − 1)`. -/
def maxDrawdown (equity : List ℚ) : ℚ :=
  listMin (List.zipWith (fun e m => e / m - 1) equity (runningMax equity))

/-- The state machine of `_round_trip_pnls`: `acc` is the `open_trade`
variable.  A BUY (re)sets `open_trade`; a SELL with an open BUY emits one
round-trip P&L and clears it; a SELL with no open BUY is skipped. -/
def roundTripAux : Option Trade → List Trade → List ℚ
  | _, [] => []
  | acc, t :: rest =>
    match t.side with
    | .buy => roundTripAux (some t) rest
    | .sell =>
      match acc with
      | none => roundTripAux none rest
      | some b =>
        ((t.execution_price - b.execution_price) * min b.quantity t.quantity
            - (b.fee + t.fee)) :: roundTripAux none rest

/-- `_round_trip_pnls` from `performance.py`. -/
def roundTripPnls (trades : List Trade) : List ℚ :=
  roundTripAux none trades

/-- Number of BUY trades in a list. -/
def countBuys : List Trade → ℕ
  | [] => 0
  | t :: rest => (if t.side = .buy then 1 else 0) + countBuys rest

/-- Number of SELL trades in a list. -/
def countSells : List Trade → ℕ
  | [] => 0
  | t :: rest => (if t.side = .sell then 1 else 0) + countSells rest

/-- Spec scenario trade: BUY 1 unit @100, no fee, no slippage. -/
def scenarioBuy : Trade := ⟨0, .buy, 100, 1, 0, 0⟩

/-- Spec scenario trade: SELL 1 unit @120, no fee, no slippage. -/
def scenarioSell : Trade := ⟨1, .sell, 120, 1, 0, 0⟩

/-- Portfolio state after the scenario BUY from cash=1000. -/
def scenarioAfterBuy : Portfolio := ⟨900, ⟨1, 100⟩, [scenarioBuy], [], 0⟩

/-- Portfolio state after the scenario SELL. -/
def scenarioAfterSell : Portfolio :=
  ⟨1020, ⟨0, 0⟩, [scenarioBuy, scenarioSell], [], 20⟩

/-- Two candles with the same timestamp (duplicate-timestamp input). -/
def dupCandles : List Candle := [⟨1, 100⟩, ⟨1, 100⟩]

/-- The snapshot recorded at each of the two duplicate candles. -/
def dupSnapshot : PortfolioSnapshot := ⟨1, 1000, 1000, 0, 0, 0, 0, 0⟩

/-- Reduction of the `Except` do-bind on a success value. -/
theorem ok_bind {e a b : Type} (x : a) (f : a → Except e b) :
    (Except.ok x >>= f) = f x := rfl

/-- C1 — For every portfolio and every SELL trade whose quantity exceeds the
held position quantity by more than `tol` (= 1e-9), `Portfolio.process_trade`
raises the oversell error.  In this state-passing embedding an `.error`
result produces no successor portfolio, and in the source the raise precedes
every mutation of cash, position, history, snapshots and realised P&L, so
the whole portfolio state is exactly as before the call (atomicity). -/
theorem oversell_rejected_atomically (pf : Portfolio) (t : Trade)
    (hside : t.side = OrderSide.sell) (hq : 0 < t.quantity)
    (hover : t.quantity - pf.position.quantity > tol) :
    pf.process_trade t = Except.error Err.oversell := by
  obtain ⟨ts, side, price, q, fee, slip⟩ := t
  simp only at hside hq hover
  subst hside
  simp [Portfolio.process_trade, not_le.mpr hq, hover]

/-- Closed witness for C1: SELL 2 @50 against a position of 1 held unit. -/
theorem oversell_rejected_atomically_witness :
    Portfolio.process_trade ⟨950, ⟨1, 50⟩, [], [], 0⟩ ⟨0, .sell, 50, 2, 0, 0⟩ =
      Except.error Err.oversell :=
  oversell_rejected_atomically ⟨950, ⟨1, 50⟩, [], [], 0⟩ ⟨0, .sell, 50, 2, 0, 0⟩
    rfl (by norm_num) (by norm_num [tol])

/-- C2 — Every SELL accepted by `Portfolio.process_trade` accrues realized
P&L `((execution_price − fee/quantity) − pre_trade_average_price) ×
quantity` with `execution_price = price × (1 − slippage)`; and the spec
scenario holds: from cash=1000, BUY 1 @100 (no fee/slippage) gives cash=900,
quantity 1, average price 100, then SELL 1 @120 gives cash=1020, a flat
position, and realised_pnl = +20. -/
theorem sell_realised_pnl_accrual (pf : Portfolio) (t : Trade)
    (pf' : Portfolio) (hside : t.side = OrderSide.sell)
    (hok : pf.process_trade t = Except.ok pf') :
    pf'.realised_pnl = pf.realised_pnl +
        ((t.price * (1 - t.slippage) - t.fee / t.quantity) -
          pf.position.average_price) * t.quantity ∧
      (Portfolio.init 1000).process_trade scenarioBuy =
        Except.ok scenarioAfterBuy ∧
      scenarioAfterBuy.process_trade scenarioSell =
        Except.ok scenarioAfterSell := by
  refine ⟨?_, ?_, ?_⟩
  · obtain ⟨ts, side, price, q, fee, slip⟩ := t
    simp only at hside
    subst hside
    simp only [Portfolio.process_trade, Position.apply_trade,
      Trade.execution_price] at hok
    split at hok
    · exact absurd hok (by simp)
    split at hok
    · exact absurd hok (by simp)
    split at hok <;>
    · simp only [ok_bind, Except.ok.injEq] at hok
      subst hok
      ring
  · norm_num [Portfolio.process_trade, Portfolio.init, scenarioBuy,
      scenarioAfterBuy, Trade.execution_price, Position.apply_trade, tol,
      ok_bind]
  · norm_num [Portfolio.process_trade, scenarioAfterBuy, scenarioSell,
      scenarioAfterSell, scenarioBuy, Trade.execution_price,
      Position.apply_trade, tol, ok_bind]

/-- Closed witness for C2: the scenario SELL itself. -/
theorem sell_realised_pnl_accrual_witness :
    scenarioAfterSell.realised_pnl = scenarioAfterBuy.realised_pnl +
        ((scenarioSell.price * (1 - scenarioSell.slippage) -
          scenarioSell.fee / scenarioSell.quantity) -
          scenarioAfterBuy.position.average_price) * scenarioSell.quantity ∧
      (Portfolio.init 1000).process_trade scenarioBuy =
        Except.ok scenarioAfterBuy ∧
      scenarioAfterBuy.process_trade scenarioSell =
        Except.ok scenarioAfterSell :=
  sell_realised_pnl_accrual scenarioAfterBuy scenarioSell scenarioAfterSell
    rfl (by norm_num [Portfolio.process_trade, scenarioAfterBuy, scenarioSell,
      scenarioAfterSell, scenarioBuy, Trade.execution_price,
      Position.apply_trade, tol, ok_bind])

/-- C3 — Every snapshot appended by `Portfolio.mark_to_market` satisfies
`equity = cash + position_quantity × mark_price`, where `cash` and
`position_quantity` are the snapshot's own recorded fields and `mark_price`
is the price passed to the call (exact in ℚ, hence within floating
tolerance in the source). -/
theorem snapshot_equity_reconciliation (pf : Portfolio) (ts : ℕ) (mp : ℚ)
    (pf' : Portfolio) (s : PortfolioSnapshot)
    (hok : pf.mark_to_market ts mp = Except.ok pf')
    (hmem : s ∈ pf'.snapshots) (hnew : s ∉ pf.snapshots) :
    s.equity = s.cash + s.position_quantity * mp := by
  simp only [Portfolio.mark_to_market] at hok
  split at hok
  · exact absurd hok (by simp)
  simp only [Except.ok.injEq] at hok
  subst hok
  simp only [List.mem_append, List.mem_singleton] at hmem
  rcases hmem with h | h
  · exact absurd h hnew
  subst h
  simp [Position.market_value]

/-- Closed witness for C3: marking a fresh portfolio at price 10. -/
theorem snapshot_equity_reconciliation_witness :
    PortfolioSnapshot.equity ⟨0, 1000, 1000, 0, 0, 0, 0, 0⟩ =
      PortfolioSnapshot.cash ⟨0, 1000, 1000, 0, 0, 0, 0, 0⟩ +
        PortfolioSnapshot.position_quantity ⟨0, 1000, 1000, 0, 0, 0, 0, 0⟩ * 10 :=
  snapshot_equity_reconciliation (Portfolio.init 1000) 0 10
    ⟨1000, ⟨0, 0⟩, [], [⟨0, 1000, 1000, 0, 0, 0, 0, 0⟩], 0⟩
    ⟨0, 1000, 1000, 0, 0, 0, 0, 0⟩
    (by norm_num [Portfolio.mark_to_market, Portfolio.init,
      Position.market_value, Position.unrealised_pnl, tol])
    (by simp) (List.not_mem_nil _)

/-- C4 — After every successful `Position.apply_trade` from a state
satisfying the position invariant (`quantity ≥ 0`, `quantity = 0 →
average_price = 0`), the invariant still holds, and after a SELL any
residual quantity `≤ tol` is snapped to exactly 0 with average price 0. -/
theorem apply_trade_invariant (p : Position) (t : Trade) (p' : Position)
    (hq : 0 ≤ p.quantity) (_hz : p.quantity = 0 → p.average_price = 0)
    (ht : 0 < t.quantity) (hok : p.apply_trade t = Except.ok p') :
    0 ≤ p'.quantity ∧ (p'.quantity = 0 → p'.average_price = 0) ∧
      (t.side = OrderSide.sell → p.quantity - t.quantity ≤ tol →
        p'.quantity = 0 ∧ p'.average_price = 0) := by
  obtain ⟨ts, side, price, q, fee, slip⟩ := t
  simp only at ht
  cases side with
  | buy =>
    simp only [Position.apply_trade, Except.ok.injEq] at hok
    subst hok
    refine ⟨by positivity, fun h => ?_, by simp⟩
    exact absurd h (ne_of_gt (by positivity))
  | sell =>
    simp only [Position.apply_trade] at hok
    split at hok
    · exact absurd hok (by simp)
    split at hok <;> simp only [Except.ok.injEq] at hok <;> subst hok
    · exact ⟨le_refl 0, fun _ => rfl, fun _ _ => ⟨rfl, rfl⟩⟩
    · rename_i hsnap
      push_neg at hsnap
      have hpos : (0 : ℚ) < p.quantity - q :=
        lt_trans (by norm_num [tol]) hsnap
      refine ⟨le_of_lt hpos, fun h => absurd h (ne_of_gt hpos), ?_⟩
      intro _ hres
      exact absurd hres (not_le.mpr hsnap)

/-- Closed witness for C4: selling the whole held unit snaps to flat. -/
theorem apply_trade_invariant_witness :
    0 ≤ Position.quantity ⟨0, 0⟩ ∧
      (Position.quantity ⟨0, 0⟩ = 0 → Position.average_price ⟨0, 0⟩ = 0) ∧
      (Trade.side ⟨0, .sell, 50, 1, 0, 0⟩ = OrderSide.sell →
        Position.quantity ⟨1, 50⟩ - Trade.quantity ⟨0, .sell, 50, 1, 0, 0⟩ ≤ tol →
        Position.quantity ⟨0, 0⟩ = 0 ∧ Position.average_price ⟨0, 0⟩ = 0) :=
  apply_trade_invariant ⟨1, 50⟩ ⟨0, .sell, 50, 1, 0, 0⟩ ⟨0, 0⟩
    (by norm_num) (by norm_num) (by norm_num)
    (by norm_num [Position.apply_trade, Trade.execution_price, tol])

/-- C5 — Contrary to the spec (and to the repository's own
`test_duplicate_timestamps_raises`), `run_backtest` performs no
duplicate-timestamp validation: on an input whose two candles share
timestamp 1 it does not raise, but processes both candles and returns a
completed result with one snapshot per candle. -/
theorem duplicate_timestamps_processed :
    run_backtest ⟨1000, 95 / 100, 0, 0, 25⟩ dupCandles [] =
      Except.ok (⟨1000, ⟨0, 0⟩, [], [dupSnapshot, dupSnapshot], 0⟩, []) := by
  norm_num [run_backtest, sortCandles, insertCandle, stepCandle, signalsAt,
    Portfolio.init, Portfolio.mark_to_market, Position.market_value,
    Position.unrealised_pnl, ok_bind, List.foldlM, List.filter, dupCandles,
    dupSnapshot, tol]

/-- Counterexample for C6: a configuration with a negative `fee_pct` is
accepted by the constructor — the claimed fee/slippage/min-trade-value
validation does not exist in `ExecutionEngine.__init__`. -/
theorem negative_fee_engine_accepted :
    mkEngine 10000 (95 / 100) (-1) (5 / 10000) 25 =
      Except.ok ⟨10000, 95 / 100, -1, 5 / 10000, 25⟩ := by
  norm_num [mkEngine]

/-- C6 (amended) — Engine construction fails with the configuration error
exactly when `max_position_pct` lies outside `(0, 1]` (so
`max_position_pct = 1.5` raises before any run); `fee_pct`, `slippage_pct`
and `min_trade_value` are not validated, and for every in-range
`max_position_pct` construction succeeds with the given fields. -/
theorem engine_validation_exact (ib mpp fp sp mtv : ℚ) :
    (mkEngine ib mpp fp sp mtv = Except.error Err.configuration ↔
      ¬(0 < mpp ∧ mpp ≤ 1)) ∧
    ((0 < mpp ∧ mpp ≤ 1) →
      mkEngine ib mpp fp sp mtv = Except.ok ⟨ib, mpp, fp, sp, mtv⟩) := by
  by_cases h : 0 < mpp ∧ mpp ≤ 1 <;> simp [mkEngine, h]

/-- Closed witness for C6 (amended): `max_position_pct = 1.5` is rejected
at construction. -/
theorem engine_validation_exact_witness :
    mkEngine 10000 (3 / 2) (7 / 10000) (5 / 10000) 25 =
      Except.error Err.configuration :=
  (engine_validation_exact 10000 (3 / 2) (7 / 10000) (5 / 10000) 25).1.mpr
    (by norm_num)

/-- A left fold by `min` never exceeds its starting value. -/
lemma foldl_min_le (l : List ℚ) (a : ℚ) : l.foldl min a ≤ a := by
  induction l generalizing a with
  | nil => exact le_refl a
  | cons x xs ih => exact le_trans (ih (min a x)) (min_le_left a x)

/-- A lower bound on the start and all elements bounds the fold by `min`. -/
lemma le_foldl_min (l : List ℚ) (a lo : ℚ) (ha : lo ≤ a)
    (hl : ∀ x ∈ l, lo ≤ x) : lo ≤ l.foldl min a := by
  induction l generalizing a with
  | nil => exact ha
  | cons x xs ih =>
    exact ih (min a x) (le_min ha (hl x (by simp)))
      (fun y hy => hl y (by simp [hy]))

/-- Each drawdown entry `e / cummax − 1` over positive equity lies in
`[−1, 0]`. -/
lemma drawdown_entry_bounds (xs : List ℚ) : ∀ m : ℚ, 0 < m →
    (∀ x ∈ xs, 0 < x) →
    ∀ d ∈ List.zipWith (fun e c => e / c - 1) xs (cummaxFrom m xs),
      -1 ≤ d ∧ d ≤ 0 := by
  induction xs with
  | nil => intro m _ _ d hd; simp [cummaxFrom] at hd
  | cons y ys ih =>
    intro m hm hpos d hd
    simp only [cummaxFrom, List.zipWith_cons_cons, List.mem_cons] at hd
    rcases hd with h | h
    · subst h
      have hy : 0 < y := hpos y (by simp)
      have hmax : 0 < max m y := lt_max_of_lt_right hy
      constructor
      · have : 0 < y / max m y := div_pos hy hmax
        linarith
      · have : y / max m y ≤ 1 := (div_le_one hmax).mpr (le_max_right m y)
        linarith
    · exact ih (max m y) (lt_max_of_lt_left hm)
        (fun x hx => hpos x (by simp [hx])) d h

/-- C7 — For every non-empty equity curve of strictly positive values,
`maxDrawdown` is literally `min(equity / running_max(equity) − 1)` and
lies in `[−1, 0]`; on the curve `[100, 110, 99, 105]` the analyzer returns
`total_return = 0.05` and `max_drawdown = 99/110 − 1`. -/
theorem maxDrawdown_bounded (equity : List ℚ) (hne : equity ≠ [])
    (hpos : ∀ x ∈ equity, 0 < x) :
    (maxDrawdown equity =
        listMin (List.zipWith (fun e m => e / m - 1) equity
          (runningMax equity)) ∧
      -1 ≤ maxDrawdown equity ∧ maxDrawdown equity ≤ 0) ∧
    (totalReturn [100, 110, 99, 105] = 1 / 20 ∧
      maxDrawdown [100, 110, 99, 105] = 99 / 110 - 1) := by
  refine ⟨⟨rfl, ?_⟩, ?_⟩
  · match equity, hne with
    | x :: xs, _ =>
      have hx : 0 < x := hpos x (by simp)
      have hdd : x / x - 1 = 0 := by field_simp
      simp only [maxDrawdown, runningMax, listMin, List.zipWith_cons_cons, hdd]
      constructor
      · refine le_foldl_min _ _ _ (by norm_num) ?_
        intro d hd
        exact (drawdown_entry_bounds xs x hx
          (fun z hz => hpos z (by simp [hz])) d hd).1
      · exact le_trans (foldl_min_le _ _) (by norm_num)
  · constructor
    · norm_num [totalReturn, lastD]
    · norm_num [maxDrawdown, runningMax, cummaxFrom, listMin]

/-- Closed witness for C7: the spec's scenario curve. -/
theorem maxDrawdown_bounded_witness :
    (maxDrawdown [100, 110, 99, 105] =
        listMin (List.zipWith (fun e m => e / m - 1) [100, 110, 99, 105]
          (runningMax [100, 110, 99, 105])) ∧
      -1 ≤ maxDrawdown [100, 110, 99, 105] ∧
        maxDrawdown [100, 110, 99, 105] ≤ 0) ∧
    (totalReturn [100, 110, 99, 105] = 1 / 20 ∧
      maxDrawdown [100, 110, 99, 105] = 99 / 110 - 1) :=
  maxDrawdown_bounded [100, 110, 99, 105] (by simp)
    (by intro x hx; fin_cases hx <;> norm_num)

/-- C8 — The backtest is deterministic: the source consults no randomness
or ambient state, so its translation is a pure function of the
configuration and the candle/signal input, and two runs on the same input
yield the very same result — in particular the same trade list (same
trades, same order) and the same final equity. -/
theorem backtest_deterministic (cfg : EngineConfig) (candles : List Candle)
    (signals : List SignalRow) :
    run_backtest cfg candles signals = run_backtest cfg candles signals ∧
      Except.map (fun r => r.2) (run_backtest cfg candles signals) =
        Except.map (fun r => r.2) (run_backtest cfg candles signals) ∧
      Except.map (fun r => r.1.total_equity) (run_backtest cfg candles signals) =
        Except.map (fun r => r.1.total_equity)
          (run_backtest cfg candles signals) :=
  ⟨rfl, rfl, rfl⟩

/-- Reduction of the `Except` do-bind on an error value. -/
theorem error_bind {e a b : Type} (x : e) (f : a → Except e b) :
    (Except.error x >>= f) = Except.error x := rfl

/-- C9 — The BUY sizing in `rebalance` ignores fee and slippage: the
desired notional is `cash × max_position_pct`, but the ledger charges
`notional × (1 + slippage_pct) + notional × fee_pct`.  Hence whenever
`max_position_pct = 1`, the portfolio is flat, `cash ≥ min_trade_value`
and `cash × (fee_pct + slippage_pct) > tol`, the triggered BUY always
fails with the insufficient-funds error (which aborts the run, since the
engine loop propagates the error). -/
theorem buy_sizing_ignores_costs (cfg : EngineConfig) (pf : Portfolio)
    (ts : ℕ) (price : ℚ) (hmpp : cfg.max_position_pct = 1)
    (hfee : 0 ≤ cfg.fee_pct) (hslip : 0 ≤ cfg.slippage_pct)
    (hflat : pf.position.quantity ≤ 0) (hprice : 0 < price)
    (hmin : cfg.min_trade_value ≤ pf.cash)
    (hgap : tol < pf.cash * (cfg.fee_pct + cfg.slippage_pct)) :
    rebalance cfg ts price 1 pf = Except.error Err.insufficientFunds := by
  have htolpos : (0 : ℚ) < tol := by norm_num [tol]
  have hsum : 0 ≤ cfg.fee_pct + cfg.slippage_pct := add_nonneg hfee hslip
  have hcash : 0 < pf.cash := by nlinarith
  have hq : 0 < pf.cash / price := div_pos hcash hprice
  have hfee0 : 0 ≤ pf.cash * cfg.fee_pct := mul_nonneg (le_of_lt hcash) hfee
  have hnot : price * (1 + cfg.slippage_pct) * (pf.cash / price) +
      pf.cash * cfg.fee_pct - pf.cash > tol := by
    have hpe : price * (1 + cfg.slippage_pct) * (pf.cash / price) =
        pf.cash * (1 + cfg.slippage_pct) := by
      field_simp
      ring
    rw [hpe]
    nlinarith
  simp only [rebalance, hmpp, mul_one]
  rw [if_neg (by simp)]
  rw [if_pos (by exact ⟨by norm_num, hflat⟩)]
  rw [if_neg (not_lt.mpr hmin)]
  simp only [mkTrade, if_neg (not_le.mpr hprice), if_neg (not_le.mpr hq),
    if_neg (not_lt.mpr hfee0), if_neg (not_lt.mpr hslip), ok_bind]
  simp only [Portfolio.process_trade, if_neg (not_le.mpr hq),
    Trade.execution_price]
  rw [if_pos hnot]
  rfl

/-- Closed witness for C9: the default fee/slippage with full sizing. -/
theorem buy_sizing_ignores_costs_witness :
    rebalance ⟨10000, 1, 7 / 10000, 5 / 10000, 25⟩ 0 100 1
      (Portfolio.init 10000) = Except.error Err.insufficientFunds :=
  buy_sizing_ignores_costs ⟨10000, 1, 7 / 10000, 5 / 10000, 25⟩
    (Portfolio.init 10000) 0 100 rfl (by norm_num) (by norm_num)
    (by norm_num [Portfolio.init]) (by norm_num) (by norm_num [Portfolio.init])
    (by norm_num [Portfolio.init, tol])

/-- The `open_trade` accumulator of `_round_trip_pnls` emits at most one
P&L per SELL and consumes a (re)armed BUY each time. -/
lemma roundTripAux_length (ts : List Trade) : ∀ acc : Option Trade,
    (roundTripAux acc ts).length ≤
      min (countBuys ts + (if acc.isSome then 1 else 0)) (countSells ts) := by
  induction ts with
  | nil => intro acc; simp [roundTripAux]
  | cons t rest ih =>
    intro acc
    obtain ⟨tts, side, price, q, fee, slip⟩ := t
    cases side with
    | buy =>
      have h1 := ih (some ⟨tts, .buy, price, q, fee, slip⟩)
      simp only [roundTripAux, countBuys, countSells] at h1 ⊢
      simp at h1 ⊢
      omega
    | sell =>
      cases acc with
      | none =>
        have h1 := ih none
        simp only [roundTripAux, countBuys, countSells] at h1 ⊢
        simp at h1 ⊢
        omega
      | some b =>
        have h1 := ih none
        simp only [roundTripAux, countBuys, countSells, List.length_cons]
          at h1 ⊢
        simp at h1 ⊢
        omega

/-- C10 — On an arbitrary trade list the round-trip pairing keeps only the
single most recently seen BUY: a later BUY replaces (discards) the earlier
one, a SELL with no open BUY is skipped, a trailing unmatched BUY
contributes nothing, and the number of emitted round trips never exceeds
`min(#BUYs, #SELLs)`. -/
theorem round_trip_pairing :
    (∀ trades : List Trade,
      (roundTripPnls trades).length ≤
        min (countBuys trades) (countSells trades)) ∧
    (∀ (acc : Option Trade) (b : Trade) (rest : List Trade),
      b.side = OrderSide.buy →
        roundTripAux acc (b :: rest) = roundTripAux (some b) rest) ∧
    (∀ (s : Trade) (rest : List Trade), s.side = OrderSide.sell →
      roundTripAux none (s :: rest) = roundTripAux none rest) ∧
    (∀ b : Trade, b.side = OrderSide.buy → roundTripAux (some b) [] = []) := by
  refine ⟨?_, ?_, ?_, ?_⟩
  · intro trades
    have h1 := roundTripAux_length trades none
    simpa [roundTripPnls] using h1
  · intro acc b rest hb
    simp [roundTripAux, hb]
  · intro s rest hs
    simp [roundTripAux, hs]
  · intro b _
    rfl

/-- Closed witness for C10: a lone SELL is skipped and a trailing BUY
makes no round trip. -/
theorem round_trip_pairing_witness :
    roundTripAux none [⟨0, .sell, 100, 1, 0, 0⟩] = roundTripAux none [] ∧
      roundTripAux (some ⟨0, .buy, 100, 1, 0, 0⟩) [] = [] :=
  ⟨round_trip_pairing.2.2.1 ⟨0, .sell, 100, 1, 0, 0⟩ [] rfl,
    round_trip_pairing.2.2.2 ⟨0, .buy, 100, 1, 0, 0⟩ rfl⟩

end TES
